import Mathlib

/-!
Verification of the separation OpenCL setup code (`setup_cl.c`) of the
milkywayathome client.  The C functions are shallowly embedded as Lean
functions: `cl_ulong` / 64-bit `size_t` arithmetic is `Nat` arithmetic
reduced `% 2^64` wherever the C computation can wrap, `cl_uint` results are
reduced `% 2^32`, C `double` arithmetic is modelled by exact rationals, and
every C division site is guarded so that a division by zero (undefined
behaviour in C) surfaces as a distinguished outcome instead of Lean's
`x / 0 = 0` convention.  Results of external collaborators (device queries,
program builds) are passed in as explicit parameters.
-/

namespace MilkyWay

/-- Modulus of 64-bit `cl_ulong` / `size_t` arithmetic, `2 ^ 64`. -/
def U64 : ℕ := 18446744073709551616

/-- Modulus of 32-bit `cl_uint` arithmetic, `2 ^ 32`. -/
def U32 : ℕ := 4294967296

/-- The C constant `CL_ULONG_MAX`. -/
def CL_ULONG_MAX : ℕ := U64 - 1

/-- 64-bit wrapping subtraction `a - b` for `a b < 2^64`, as C unsigned
subtraction computes it. -/
def subWrap64 (a b : ℕ) : ℕ := (a + U64 - b) % U64

/-- `IntegralArea`: grid shape of one integral cut.  The C fields are
`cl_uint`; the theorems carry the `< 2^32` bounds where they matter. -/
structure IntegralArea where
  nu_steps : ℕ
  mu_steps : ℕ
  r_steps : ℕ
deriving DecidableEq

/-- The subset of `AstronomyParameters` read by this file. -/
structure AstronomyParameters where
  number_streams : ℕ
  aux_bg_profile : Bool
  convolve : ℕ
deriving DecidableEq

/-- `MWCALtargetEnum`: AMD CAL target families distinguished by
`isILKernelTarget`, plus representatives of the remaining values. -/
inductive MWCALtargetEnum where
  | MW_CAL_TARGET_600
  | MW_CAL_TARGET_770
  | MW_CAL_TARGET_CYPRESS
  | MW_CAL_TARGET_CAYMAN
  | MW_CAL_TARGET_UNKNOWN
deriving BEq, DecidableEq

/-- The subset of `DevInfo` read by this file.  `gflopsEstimate` is the
result of the external `mwDeviceEstimateGFLOPs(di, DOUBLEPREC)` call
(device throughput model, not part of the sources), carried as data. -/
structure DevInfo where
  devTypeIsCPU : Bool
  nonOutput : Bool
  warpSize : ℕ
  maxCompUnits : ℕ
  maxWorkItemSizes0 : ℕ
  maxWorkItemSizes1 : ℕ
  maxWorkItemSizes2 : ℕ
  memSize : ℕ
  maxMemAlloc : ℕ
  maxConstArgs : ℕ
  maxConstBufSize : ℕ
  calTarget : MWCALtargetEnum
  isAMDGPU : Bool
  supportsDoubles : Bool
  gflopsEstimate : ℚ

/-- `CLRequest`: user/configuration intent.  `magicFactor` is a C `cl_int`,
`targetFrequency` a C `double` modelled as an exact rational. -/
structure CLRequest where
  targetFrequency : ℚ
  magicFactor : ℤ
  nonResponsive : Bool
  forceNoILKernel : Bool
  verbose : Bool

/-- `RunSizes`: the planner's output record.  `local0` and `global0` are
`local[0]` and `global[0]` of the C struct. -/
structure RunSizes where
  r : ℕ
  mu : ℕ
  nu : ℕ
  area : ℕ
  nChunkEstimate : ℕ
  nChunk : ℕ
  chunkSize : ℕ
  extra : ℕ
  effectiveArea : ℕ
  local0 : ℕ
  global0 : ℕ
deriving DecidableEq

/-- Modelled from the spec: `mwDivRoundup` from the external milkyway
utility library (its source is not among this file's sources); the spec uses
it as ceiling division, `ceil(a / b)`.  Call sites guard the divisor. -/
def mwDivRoundup (a b : ℕ) : ℕ := (a + b - 1) / b

/-- Modelled from the spec: `mwDivisible` from the external milkyway utility
library; true when `b` divides `a`.  Call sites guard `b = 0`. -/
def mwDivisible (a b : ℕ) : Bool := a % b == 0

/-- The `cl_ulong` operation count of `estimateWUGFLOPsPerIter`
(setup_cl.c lines 85-91): per-item cost from stream count, auxiliary
background profile and convolution, times the (mu, r) grid. -/
def estimatePerIterOps (ap : AstronomyParameters) (ia : IntegralArea) : ℕ :=
  let tmp : ℕ := (32 + ap.number_streams * 68 + if ap.aux_bg_profile then 8 else 0) % U64
  let perItem : ℕ := (tmp * ap.convolve + 1 + ap.number_streams * 2) % U64
  perItem * ia.mu_steps % U64 * ia.r_steps % U64

/-- `estimateWUGFLOPsPerIter` (lines 83-94): `1.0e-9 * perIter`, the C
`double` arithmetic modelled as exact rationals. -/
def estimateWUGFLOPsPerIter (ap : AstronomyParameters) (ia : IntegralArea) : ℚ :=
  (estimatePerIterOps ap ia : ℚ) / 1000000000

/-- `GPU_EFFICIENCY_ESTIMATE` (line 96). -/
def GPU_EFFICIENCY_ESTIMATE : ℚ := 95 / 100

/-- `findNChunk` (lines 99-115).  The `(cl_uint)` cast of the nonnegative
quotient truncates toward zero (floor) and is reduced to the 32-bit range;
the trailing test replaces 0 by 1. -/
def findNChunk (ap : AstronomyParameters) (ia : IntegralArea) (di : DevInfo)
    (clr : CLRequest) : ℕ :=
  let gflops : ℚ := di.gflopsEstimate
  let effFlops : ℚ := GPU_EFFICIENCY_ESTIMATE * gflops
  let iterFlops : ℚ := estimateWUGFLOPsPerIter ap ia
  let estIterTime : ℚ := 1000 * iterFlops / effFlops
  let timePerIter : ℚ := 1000 / clr.targetFrequency
  let nChunk : ℕ := (Int.toNat ⌊estIterTime / timePerIter⌋) % U32
  if nChunk = 0 then 1 else nChunk

/-- Outcome of `findRunSizes`.  `divByZero` marks reaching a C division or
modulo with zero divisor (undefined behaviour), carrying the caller's
`RunSizes` struct as mutated so far; `stuck` is the (never reached in
practice) exhaustion of the clamp-loop fuel; `err` is the `CL_TRUE` error
return and `ok` the `CL_FALSE` success return, each carrying the struct. -/
inductive PlanOutcome where
  | divByZero (s : RunSizes)
  | stuck (s : RunSizes)
  | err (s : RunSizes)
  | ok (s : RunSizes)
deriving DecidableEq

/-- Result of the chunk-size clamp loop (lines 241-245). -/
inductive ClampResult where
  | done (nChunk chunkSize : ℕ)
  | divZero
  | fuelOut
deriving DecidableEq

/-- The while-loop of lines 241-245: while `chunkSize > maxWorkDim`, double
`nChunk` (64-bit `size_t`, so `% 2^64`) and recompute
`chunkSize = effectiveArea / nChunk`.  `fuel` bounds the recursion; every
execution exits within 128 iterations because `nChunk` doubles mod `2^64`
(reaching either the exit condition or 0, which is a division by zero). -/
def clampLoop (effectiveArea maxWorkDim : ℕ) : ℕ → ℕ → ℕ → ClampResult
  | 0, _, _ => .fuelOut
  | fuel + 1, nChunk, chunkSize =>
    if chunkSize > maxWorkDim then
      let n := nChunk * 2 % U64
      if n = 0 then .divZero
      else clampLoop effectiveArea maxWorkDim fuel n (effectiveArea / n)
    else .done nChunk chunkSize

/-- `maxWorkDim` (line 132): product of the per-dimension maximum work-item
sizes in `cl_ulong` arithmetic. -/
def maxWorkDim (di : DevInfo) : ℕ :=
  di.maxWorkItemSizes0 * di.maxWorkItemSizes1 % U64 * di.maxWorkItemSizes2 % U64

/-- Lines 258-268 of `findRunSizes`: set `global[0]`, then the final sanity
check `effectiveArea < area`. -/
def finishPlan (s : RunSizes) : PlanOutcome :=
  let sG : RunSizes := { s with global0 := s.chunkSize }
  if sG.effectiveArea < sG.area then .err sG else .ok sG

/-- Lines 235-256 of `findRunSizes`: `chunkSize = effectiveArea / nChunk`,
the oversized-chunk clamp loop, and its divisibility checks. -/
def planFinishStage (s6 : RunSizes) (mwd : ℕ) : PlanOutcome :=
  if s6.nChunk = 0 then .divByZero s6
  else
    let s7 : RunSizes := { s6 with chunkSize := s6.effectiveArea / s6.nChunk }
    if s7.chunkSize > mwd then
      match clampLoop s7.effectiveArea mwd 128 s7.nChunk s7.chunkSize with
      | .fuelOut => .stuck s7
      | .divZero => .divByZero s7
      | .done n c =>
        let s8 : RunSizes := { s7 with nChunk := n, chunkSize := c }
        if s8.local0 = 0 then .divByZero s8
        else if !mwDivisible s8.chunkSize s8.local0 then .err s8
        else finishPlan s8
    else finishPlan s7

/-- Lines 216-233 of `findRunSizes`, after the magic factor is chosen:
`chunkSize = magic * blockSize`, effective area and chunk count, and the
`nChunk == 1` realignment to `blockSize`. -/
def findRunSizesAfterMagic (s3 : RunSizes) (magic blockSize mwd : ℕ)
    (forceOneChunk : Bool) : PlanOutcome :=
  let chunkSize := magic * blockSize % U64
  let s4 : RunSizes := { s3 with chunkSize := chunkSize }
  if chunkSize = 0 then .divByZero s4
  else
    let effectiveArea := chunkSize * mwDivRoundup s4.area chunkSize % U64
    let nChunk := if forceOneChunk then 1 else mwDivRoundup effectiveArea chunkSize
    let s5 : RunSizes :=
      { s4 with
        effectiveArea := effectiveArea
        nChunk := nChunk
        extra := subWrap64 effectiveArea s4.area % U32 }
    if s5.nChunk = 1 then
      if blockSize = 0 then .divByZero s5
      else
        let ea := blockSize * mwDivRoundup s5.area blockSize % U64
        planFinishStage
          { s5 with
            effectiveArea := ea
            chunkSize := ea
            extra := subWrap64 ea s5.area % U32 } mwd
    else planFinishStage s5 mwd

/-- `findRunSizes` (lines 118-269).  `s0` is the caller's `RunSizes` struct
before the call (the C function mutates it through a pointer); `wgRes` is
the result of the external `mwGetWorkGroupInfo` query (`none` models a
failed query, `some wgs` the reported kernel work group size).  The negative
`magicFactor` warning (line 201) has no state effect and the `<= 0` test
then selects the default computation. -/
def findRunSizes (s0 : RunSizes) (di : DevInfo) (wgRes : Option ℕ)
    (ap : AstronomyParameters) (ia : IntegralArea) (clr : CLRequest) : PlanOutcome :=
  let forceOneChunk := clr.nonResponsive || di.nonOutput
  let mwd := maxWorkDim di
  let r := ia.r_steps
  let mu := ia.mu_steps
  let s1 : RunSizes := { s0 with r := r, mu := mu, nu := ia.nu_steps, area := r * mu % U64 }
  if mu = 0 then .divByZero s1
  else if r > CL_ULONG_MAX / mu then .err s1
  else if di.devTypeIsCPU then
    .ok
      { s1 with
        nChunk := 1
        nChunkEstimate := 1
        chunkSize := s1.area
        effectiveArea := s1.area
        extra := 0
        local0 := 1
        global0 := s1.area }
  else
    match wgRes with
    | none => .err s1
    | some wgs =>
      if di.warpSize = 0 then .divByZero s1
      else if !mwDivisible wgs di.warpSize then .err s1
      else
        let nWavefrontPerCU := wgs / di.warpSize
        let s2 : RunSizes := { s1 with local0 := di.warpSize }
        let blockSize := nWavefrontPerCU * di.warpSize % U64 * di.maxCompUnits % U64
        let s3 : RunSizes := { s2 with nChunkEstimate := findNChunk ap ia di clr }
        if clr.magicFactor ≤ 0 then
          let d := s3.nChunkEstimate * blockSize % U64
          if d = 0 then .divByZero s3
          else
            let magic0 := s3.area / d % U32
            let magic := if magic0 = 0 then 1 else magic0
            findRunSizesAfterMagic s3 magic blockSize mwd forceOneChunk
        else
          findRunSizesAfterMagic s3 (clr.magicFactor.toNat % U32) blockSize mwd forceOneChunk

/-- `NUM_CONST_BUF_ARGS` (line 306). -/
def NUM_CONST_BUF_ARGS : ℕ := 5

/-- `SeparationSizes`: byte sizes of the device buffers of one integral cut,
as computed by the external `calculateSizes` (separation_cl_buffers, not
among this file's sources).  All fields are `size_t`. -/
structure SeparationSizes where
  outBg : ℕ
  outStreams : ℕ
  ap : ℕ
  ia : ℕ
  sc : ℕ
  sg_dx : ℕ
  lTrig : ℕ
  bSin : ℕ
  rPts : ℕ
  rc : ℕ
deriving DecidableEq

/-- `separationCheckDevMemory` (lines 309-364): the per-cut memory checks,
in source order, `size_t` sums wrapping mod `2^64`. -/
def separationCheckDevMemory (di : DevInfo) (sz : SeparationSizes) : Bool :=
  let totalOut := (sz.outBg + sz.outStreams) % U64
  let totalConstBuf := (sz.ap + sz.ia + sz.sc + sz.sg_dx) % U64
  let totalGlobalConst := (sz.lTrig + sz.bSin + sz.rPts + sz.rc) % U64
  let totalMem := (totalOut + totalConstBuf + totalGlobalConst) % U64
  if totalMem > di.memSize then false
  else if totalOut > di.memSize then false
  else if sz.outBg > di.maxMemAlloc || sz.outStreams > di.maxMemAlloc then false
  else if sz.lTrig > di.maxMemAlloc || sz.bSin > di.maxMemAlloc
       || sz.rPts > di.maxMemAlloc || sz.rc > di.maxMemAlloc then false
  else if NUM_CONST_BUF_ARGS > di.maxConstArgs then false
  else if totalConstBuf > di.maxConstBufSize then false
  else true

/-- `separationCheckDevCapabilities` (lines 367-391).  `doubleprec` is the
compile-time `DOUBLEPREC` flag; `cutSizes` is the list of per-cut
`SeparationSizes` produced by the external `calculateSizes` for
`ias[0..number_integrals)`.  `List.all` short-circuits exactly as the C
loop's early `return CL_FALSE` does. -/
def separationCheckDevCapabilities (doubleprec : Bool) (di : DevInfo)
    (cutSizes : List SeparationSizes) : Bool :=
  if doubleprec && !di.supportsDoubles then false
  else cutSizes.all fun sz => separationCheckDevMemory di sz

/-- `isILKernelTarget` (lines 450-455). -/
def isILKernelTarget (di : DevInfo) : Bool :=
  di.calTarget == .MW_CAL_TARGET_770 || di.calTarget == .MW_CAL_TARGET_CYPRESS
    || di.calTarget == .MW_CAL_TARGET_CAYMAN

/-- `maxILKernelStreams` (line 460). -/
def maxILKernelStreams : ℕ := 4

/-- `usingILKernelIsAcceptable` (lines 457-474).  `platformAMDOffline` is
the result of the external `mwPlatformSupportsAMDOfflineDevices(ci)`. -/
def usingILKernelIsAcceptable (doubleprec : Bool) (di : DevInfo)
    (platformAMDOffline : Bool) (ap : AstronomyParameters) (clr : CLRequest) : Bool :=
  if !doubleprec then false
  else if clr.forceNoILKernel then false
  else if ap.number_streams > maxILKernelStreams || ap.aux_bg_profile then false
  else di.isAMDGPU && isILKernelTarget di && platformAMDOffline

/-- Results of the external calls made by `setupSeparationCL` and
`setProgramFromILKernel`, passed in as an oracle record: whether each call,
if reached, succeeds. -/
structure SetupOracles where
  setupCLOk : Bool
  flagsOk : Bool
  srcBuild1Ok : Bool
  getBinaryOk : Bool
  releaseOk : Bool
  modBinaryOk : Bool
  setBinOk : Bool
  srcBuild2Ok : Bool
  createKernelOk : Bool
deriving DecidableEq

/-- Which program object the kernel is created from. -/
inductive ProgKind where
  | noProg
  | fromSource
  | fromILBinary
deriving DecidableEq

/-- Observable result of `setupSeparationCL`: the returned status, the
program variant the kernel was created from, and how many program builds
(from source / from binary) were attempted. -/
structure SetupResult where
  ok : Bool
  prog : ProgKind
  srcBuilds : ℕ
  binBuilds : ℕ
deriving DecidableEq

/-- `setProgramFromILKernel` (lines 409-448) succeeds iff each step does:
extract the source-built binary, release the old program, patch the binary
(`getModifiedAMDBinary`), and load the patched binary. -/
def setProgramFromILKernelOk (o : SetupOracles) : Bool :=
  o.getBinaryOk && o.releaseOk && o.modBinaryOk && o.setBinOk

/-- Number of `mwSetProgramFromBin` attempts made inside
`setProgramFromILKernel`: the load step is only reached when the three
steps before it succeed. -/
def ilBinBuilds (o : SetupOracles) : ℕ :=
  if o.getBinaryOk && o.releaseOk && o.modBinaryOk then 1 else 0

/-- `setupSeparationCL` (lines 476-542): device setup, capability check,
kernel-variant selection, program build with IL fallback, kernel creation.
External call outcomes come from the oracle `o`. -/
def setupSeparationCL (doubleprec : Bool) (di : DevInfo) (platformAMDOffline : Bool)
    (ap : AstronomyParameters) (cutSizes : List SeparationSizes) (clr : CLRequest)
    (o : SetupOracles) : SetupResult :=
  if !o.setupCLOk then ⟨false, .noProg, 0, 0⟩
  else if !separationCheckDevCapabilities doubleprec di cutSizes then ⟨false, .noProg, 0, 0⟩
  else
    let useIL := usingILKernelIsAcceptable doubleprec di platformAMDOffline ap clr
    if !o.flagsOk then ⟨false, .noProg, 0, 0⟩
    else if !o.srcBuild1Ok then ⟨false, .noProg, 1, 0⟩
    else if useIL then
      if setProgramFromILKernelOk o then
        ⟨o.createKernelOk, .fromILBinary, 1, 1⟩
      else if !o.srcBuild2Ok then ⟨false, .noProg, 2, ilBinBuilds o⟩
      else ⟨o.createKernelOk, .fromSource, 2, ilBinBuilds o⟩
    else ⟨o.createKernelOk, .fromSource, 1, 0⟩

/-- The target chunk count as the specification words it: the CEILING of
`estimated_iteration_time_ms / (1000 / target_frequency_hz)`, floored at 1.
Stated from the spec's words, to be compared with `findNChunk`. -/
def specChunkCountCeil (ap : AstronomyParameters) (ia : IntegralArea) (di : DevInfo)
    (clr : CLRequest) : ℕ :=
  let estMs : ℚ := 1000 * estimateWUGFLOPsPerIter ap ia
    / (GPU_EFFICIENCY_ESTIMATE * di.gflopsEstimate)
  let stepMs : ℚ := 1000 / clr.targetFrequency
  max 1 (Int.toNat ⌈estMs / stepMs⌉)

/-- The target chunk count as the code actually computes it, worded for the
amended claim: the TRUNCATION (floor) of
`estimated_iteration_time_ms / (1000 / target_frequency_hz)`, reduced to the
32-bit unsigned range, floored at 1. -/
def specChunkCountFloor (ap : AstronomyParameters) (ia : IntegralArea) (di : DevInfo)
    (clr : CLRequest) : ℕ :=
  let estMs : ℚ := 1000 * estimateWUGFLOPsPerIter ap ia
    / (GPU_EFFICIENCY_ESTIMATE * di.gflopsEstimate)
  let stepMs : ℚ := 1000 / clr.targetFrequency
  max 1 (Int.toNat ⌊estMs / stepMs⌋ % U32)

/-- Exact (unwrapped) total byte count of one cut's buffers. -/
def totalBytes (sz : SeparationSizes) : ℕ :=
  sz.outBg + sz.outStreams + sz.ap + sz.ia + sz.sc + sz.sg_dx
    + sz.lTrig + sz.bSin + sz.rPts + sz.rc

/-- The capability conditions as the specification words them: (a) required
floating-point precision supported; per cut: (b) total of all buffers fits
global memory; (c) each output buffer individually fits global memory;
(d) each output buffer and each read-only/constant global buffer fits the
maximum single allocation; (e) constant-argument count within the device
limit; (f) total constant-buffer bytes within the constant memory budget. -/
def specCapabilityChecks (doubleprec : Bool) (di : DevInfo)
    (cutSizes : List SeparationSizes) : Prop :=
  (doubleprec = true → di.supportsDoubles = true) ∧
  ∀ sz ∈ cutSizes,
    totalBytes sz ≤ di.memSize ∧
    sz.outBg ≤ di.memSize ∧ sz.outStreams ≤ di.memSize ∧
    sz.outBg ≤ di.maxMemAlloc ∧ sz.outStreams ≤ di.maxMemAlloc ∧
    sz.lTrig ≤ di.maxMemAlloc ∧ sz.bSin ≤ di.maxMemAlloc ∧
    sz.rPts ≤ di.maxMemAlloc ∧ sz.rc ≤ di.maxMemAlloc ∧
    NUM_CONST_BUF_ARGS ≤ di.maxConstArgs ∧
    sz.ap + sz.ia + sz.sc + sz.sg_dx ≤ di.maxConstBufSize

/-- The IL-kernel preconditions as the specification words them:
double-precision build, not forced off by the request, stream count within
the fixed maximum with the auxiliary background term disabled, and a
recognized AMD accelerator target on a platform supporting offline-compiled
binaries. -/
def specILConditions (doubleprec : Bool) (di : DevInfo) (platformAMDOffline : Bool)
    (ap : AstronomyParameters) (clr : CLRequest) : Prop :=
  doubleprec = true ∧ clr.forceNoILKernel = false ∧
  ap.number_streams ≤ maxILKernelStreams ∧ ap.aux_bg_profile = false ∧
  di.isAMDGPU = true ∧
  (di.calTarget = .MW_CAL_TARGET_770 ∨ di.calTarget = .MW_CAL_TARGET_CYPRESS
    ∨ di.calTarget = .MW_CAL_TARGET_CAYMAN) ∧
  platformAMDOffline = true

/-! Concrete inputs used by counterexamples and witnesses. -/

/-- A `RunSizes` struct with every field zero (a fresh caller struct). -/
def rsZero : RunSizes :=
  ⟨0, 0, 0, 0, 0, 0, 0, 0, 0, 0, 0⟩

/-- A caller `RunSizes` struct with every field 37, to observe mutation. -/
def rs37 : RunSizes :=
  ⟨37, 37, 37, 37, 37, 37, 37, 37, 37, 37, 37⟩

/-- Trivial astronomy parameters: no streams, no convolution. -/
def apZero : AstronomyParameters := ⟨0, false, 0⟩

/-- A plain non-CPU device: warp size 1, one compute unit, wide work-item
limits, throughput estimate 1 GFLOP/s. -/
def gpuBase : DevInfo :=
  { devTypeIsCPU := false
    nonOutput := false
    warpSize := 1
    maxCompUnits := 1
    maxWorkItemSizes0 := 1000
    maxWorkItemSizes1 := 1
    maxWorkItemSizes2 := 1
    memSize := 1000000
    maxMemAlloc := 1000000
    maxConstArgs := 8
    maxConstBufSize := 1000000
    calTarget := .MW_CAL_TARGET_UNKNOWN
    isAMDGPU := false
    supportsDoubles := true
    gflopsEstimate := 1 }

/-- A plain request: 1 Hz target, default magic factor, responsive. -/
def clrBase : CLRequest :=
  { targetFrequency := 1
    magicFactor := 0
    nonResponsive := false
    forceNoILKernel := false
    verbose := false }

/-! ### Helper lemmas -/

lemma U64_pos : 0 < U64 := by unfold U64; omega

lemma findNChunk_pos (ap : AstronomyParameters) (ia : IntegralArea) (di : DevInfo)
    (clr : CLRequest) : 1 ≤ findNChunk ap ia di clr := by
  simp only [findNChunk]
  split <;> omega

lemma findNChunk_lt_U32 (ap : AstronomyParameters) (ia : IntegralArea) (di : DevInfo)
    (clr : CLRequest) : findNChunk ap ia di clr < U32 := by
  simp only [findNChunk]
  split
  · unfold U32; omega
  · exact Nat.mod_lt _ (by unfold U32; omega)

/-- Evaluation helper: with throughput estimate 1 GFLOP/s, target frequency
1 Hz and a small per-iteration operation count, the chunk-count estimate
collapses to 1. -/
lemma findNChunk_gflops_one (ap : AstronomyParameters) (ia : IntegralArea)
    (di : DevInfo) (clr : CLRequest) (hg : di.gflopsEstimate = 1)
    (hf : clr.targetFrequency = 1)
    (hsmall : estimatePerIterOps ap ia < 1000000) :
    findNChunk ap ia di clr = 1 := by
  have hP : (estimatePerIterOps ap ia : ℚ) < 1000000 := by exact_mod_cast hsmall
  have hP0 : (0 : ℚ) ≤ (estimatePerIterOps ap ia : ℚ) := by positivity
  have hq : (1000 * ((estimatePerIterOps ap ia : ℚ) / 1000000000) / (95 / 100 * 1))
      / (1000 / 1) = (estimatePerIterOps ap ia : ℚ) / 950000000 := by
    ring
  have hfl : ⌊(1000 * ((estimatePerIterOps ap ia : ℚ) / 1000000000) / (95 / 100 * 1))
      / (1000 / 1)⌋ = 0 := by
    rw [hq, Int.floor_eq_zero_iff, Set.mem_Ico]
    constructor
    · positivity
    · rw [div_lt_one (by norm_num)]
      linarith
  simp only [findNChunk, estimateWUGFLOPsPerIter, GPU_EFFICIENCY_ESTIMATE]
  rw [hg, hf, hfl]
  simp [U32]

lemma mwDivisible_iff (a b : ℕ) : mwDivisible a b = true ↔ a % b = 0 := by
  simp [mwDivisible]

lemma le_mul_mwDivRoundup (a b : ℕ) (hb : 0 < b) : a ≤ b * mwDivRoundup a b := by
  rcases Nat.eq_zero_or_pos a with ha | ha
  · simp [ha]
  · obtain ⟨c, rfl⟩ : ∃ c, a = c + 1 := ⟨a - 1, by omega⟩
    unfold mwDivRoundup
    rw [show c + 1 + b - 1 = c + b by omega, Nat.add_div_right _ hb, Nat.mul_add, Nat.mul_one]
    have h1 := Nat.div_add_mod c b
    have h2 := Nat.mod_lt c hb
    have e1 : c + 1 = b * (c / b) + c % b + 1 := by rw [h1]
    rw [e1, Nat.add_assoc]
    exact Nat.add_le_add_left h2 _

lemma mul_mwDivRoundup_le (a b : ℕ) : b * mwDivRoundup a b ≤ a + b - 1 := by
  unfold mwDivRoundup
  rw [Nat.mul_comm]
  exact Nat.div_mul_le_self _ _

lemma mwDivRoundup_mul_self (b m : ℕ) (hb : 0 < b) : mwDivRoundup (b * m) b = m := by
  unfold mwDivRoundup
  rw [show b * m + b - 1 = (b - 1) + b * m by omega, Nat.add_mul_div_left _ _ hb,
    Nat.div_eq_of_lt (by omega)]
  omega

/-- The `RunSizes` struct carried by any planner outcome. -/
def PlanOutcome.state : PlanOutcome → RunSizes
  | .divByZero s => s
  | .stuck s => s
  | .err s => s
  | .ok s => s

/-- The four fields of `RunSizes` written by `findRunSizes` before any
failure can occur (lines 136-139). -/
def coreFields (s : RunSizes) : ℕ × ℕ × ℕ × ℕ := (s.r, s.mu, s.nu, s.area)

lemma finishPlan_core (s : RunSizes) : coreFields (finishPlan s).state = coreFields s := by
  simp only [finishPlan]
  split <;> rfl

lemma planFinishStage_core (s6 : RunSizes) (mwd : ℕ) :
    coreFields (planFinishStage s6 mwd).state = coreFields s6 := by
  simp only [planFinishStage]
  repeat' split
  all_goals first | rfl | exact finishPlan_core _

lemma findRunSizesAfterMagic_core (s3 : RunSizes) (magic B mwd : ℕ) (force : Bool) :
    coreFields (findRunSizesAfterMagic s3 magic B mwd force).state = coreFields s3 := by
  simp only [findRunSizesAfterMagic]
  repeat' split
  all_goals first | rfl | exact planFinishStage_core _ _

lemma findRunSizes_core (s0 : RunSizes) (di : DevInfo) (wgRes : Option ℕ)
    (ap : AstronomyParameters) (ia : IntegralArea) (clr : CLRequest) :
    coreFields (findRunSizes s0 di wgRes ap ia clr).state =
      (ia.r_steps, ia.mu_steps, ia.nu_steps, ia.r_steps * ia.mu_steps % U64) := by
  simp only [findRunSizes]
  repeat' split
  all_goals first | rfl | exact findRunSizesAfterMagic_core _ _ _ _ _

/-! ### Claim theorems -/

/-- C9 (confirmed): with `mu_steps = 0` the planner reaches the division by
zero in the overflow guard `r > CL_ULONG_MAX / mu` before any zero check;
the caller's struct already holds the (wrapped) product `r * mu = 0` in
`area`, showing the product is computed before the overflow test. -/
theorem findRunSizes_mu_zero_divByZero (s0 : RunSizes) (di : DevInfo)
    (wgRes : Option ℕ) (ap : AstronomyParameters) (ia : IntegralArea)
    (clr : CLRequest) (hmu : ia.mu_steps = 0) :
    findRunSizes s0 di wgRes ap ia clr =
      .divByZero { s0 with r := ia.r_steps, mu := 0, nu := ia.nu_steps, area := 0 } := by
  unfold findRunSizes
  simp [hmu]

/-- Witness for C9 at a concrete input. -/
theorem findRunSizes_mu_zero_divByZero_witness :
    findRunSizes rsZero gpuBase none apZero ⟨1, 0, 1⟩ clrBase =
      .divByZero { rsZero with r := 1, mu := 0, nu := 1, area := 0 } :=
  findRunSizes_mu_zero_divByZero rsZero gpuBase none apZero ⟨1, 0, 1⟩ clrBase rfl

/-- C2 counterexample: on the configuration-error path (reported work group
size 200 not a multiple of warp size 32) the planner returns the error flag
but the caller's `RunSizes` has already been mutated (`r`, `mu`, `nu`,
`area` rewritten), so the caller-visible state is NOT unchanged. -/
theorem findRunSizes_mutates_on_error_cex :
    findRunSizes rs37 { gpuBase with warpSize := 32 } (some 200) apZero
        ⟨3, 7, 5⟩ clrBase =
      .err { rs37 with r := 5, mu := 7, nu := 3, area := 35 } ∧
    ({ rs37 with r := 5, mu := 7, nu := 3, area := 35 } : RunSizes) ≠ rs37 := by
  constructor
  · decide
  · decide

/-- C2 (corrected, amended): every fatal error propagates to the caller as
the `CL_TRUE` flag, but the caller's `RunSizes` is partially written on
every error path: `r`, `mu`, `nu` and `area` already hold the new input's
values. -/
theorem findRunSizes_error_mutated_fields (s0 : RunSizes) (di : DevInfo)
    (wgRes : Option ℕ) (ap : AstronomyParameters) (ia : IntegralArea)
    (clr : CLRequest) (t : RunSizes)
    (h : findRunSizes s0 di wgRes ap ia clr = .err t) :
    t.r = ia.r_steps ∧ t.mu = ia.mu_steps ∧ t.nu = ia.nu_steps ∧
      t.area = ia.r_steps * ia.mu_steps % U64 := by
  have hc := findRunSizes_core s0 di wgRes ap ia clr
  rw [h] at hc
  simp only [coreFields, PlanOutcome.state, Prod.mk.injEq] at hc
  exact ⟨hc.1, hc.2.1, hc.2.2.1, hc.2.2.2⟩

/-- Witness for C2's amended theorem at a concrete error input. -/
theorem findRunSizes_error_mutated_fields_witness :
    ({ rs37 with r := 5, mu := 7, nu := 3, area := 35 } : RunSizes).r = 5 ∧
    ({ rs37 with r := 5, mu := 7, nu := 3, area := 35 } : RunSizes).mu = 7 ∧
    ({ rs37 with r := 5, mu := 7, nu := 3, area := 35 } : RunSizes).nu = 3 ∧
    ({ rs37 with r := 5, mu := 7, nu := 3, area := 35 } : RunSizes).area = 5 * 7 % U64 :=
  findRunSizes_error_mutated_fields rs37 { gpuBase with warpSize := 32 } (some 200)
    apZero ⟨3, 7, 5⟩ clrBase _ (by decide)

/-- C6 counterexample: for a host-CPU device and an area with
`mu_steps = 0` (whose product 0 does not overflow) the planner does not
return the claimed CPU short-circuit values: it hits the overflow guard's
division by zero before the CPU branch. -/
theorem findRunSizes_cpu_mu_zero_cex :
    findRunSizes rsZero { gpuBase with devTypeIsCPU := true } none apZero
        ⟨1, 0, 1⟩ clrBase =
      .divByZero { rsZero with r := 1, mu := 0, nu := 1, area := 0 } ∧
    findRunSizes rsZero { gpuBase with devTypeIsCPU := true } none apZero
        ⟨1, 0, 1⟩ clrBase ≠
      .ok
        { rsZero with
          r := 1
          mu := 0
          nu := 1
          area := 0
          nChunkEstimate := 1
          nChunk := 1
          chunkSize := 0
          effectiveArea := 0
          extra := 0
          local0 := 1
          global0 := 0 } := by
  constructor
  · decide
  · decide

/-- C6 (corrected, amended): for a host-CPU-like device, any request, and
any area with `mu_steps >= 1` and non-overflowing product, the planner
returns immediately with one chunk, `chunkSize = area = effectiveArea`,
local size 1, global size `area` and zero padding. -/
theorem findRunSizes_cpu_shortcircuit (s0 : RunSizes) (di : DevInfo)
    (wgRes : Option ℕ) (ap : AstronomyParameters) (ia : IntegralArea)
    (clr : CLRequest) (hcpu : di.devTypeIsCPU = true) (hmu : 1 ≤ ia.mu_steps)
    (hov : ia.r_steps * ia.mu_steps ≤ CL_ULONG_MAX) :
    findRunSizes s0 di wgRes ap ia clr =
      .ok
        { s0 with
          r := ia.r_steps
          mu := ia.mu_steps
          nu := ia.nu_steps
          area := ia.r_steps * ia.mu_steps
          nChunkEstimate := 1
          nChunk := 1
          chunkSize := ia.r_steps * ia.mu_steps
          effectiveArea := ia.r_steps * ia.mu_steps
          extra := 0
          local0 := 1
          global0 := ia.r_steps * ia.mu_steps } := by
  have hmu0 : ¬ ia.mu_steps = 0 := by omega
  have hmod : ia.r_steps * ia.mu_steps % U64 = ia.r_steps * ia.mu_steps := by
    apply Nat.mod_eq_of_lt
    unfold CL_ULONG_MAX U64 at hov
    unfold U64
    omega
  have hdiv : ¬ ia.r_steps > CL_ULONG_MAX / ia.mu_steps := by
    simp only [gt_iff_lt, not_lt]
    exact (Nat.le_div_iff_mul_le hmu).mpr hov
  unfold findRunSizes
  simp [hmu0, hdiv, hcpu, hmod]

/-- Witness for C6's amended theorem at a concrete CPU input. -/
theorem findRunSizes_cpu_shortcircuit_witness :
    findRunSizes rsZero { gpuBase with devTypeIsCPU := true } none apZero
        ⟨2, 3, 4⟩ clrBase =
      .ok
        { rsZero with
          r := 4
          mu := 3
          nu := 2
          area := 12
          nChunkEstimate := 1
          nChunk := 1
          chunkSize := 12
          effectiveArea := 12
          extra := 0
          local0 := 1
          global0 := 12 } :=
  findRunSizes_cpu_shortcircuit rsZero { gpuBase with devTypeIsCPU := true } none
    apZero ⟨2, 3, 4⟩ clrBase rfl (by decide) (by decide)

/-- C3 counterexample: at exact ratio 3/2 between estimated iteration time
and the target period, the code's truncating cast yields 1 while the
specified ceiling yields 2. -/
theorem findNChunk_truncates_not_ceil_cex :
    findNChunk apZero ⟨1, 3, 1⟩ { gpuBase with gflopsEstimate := 2 / 1000000000 }
        { clrBase with targetFrequency := 19 / 20 } = 1 ∧
    specChunkCountCeil apZero ⟨1, 3, 1⟩ { gpuBase with gflopsEstimate := 2 / 1000000000 }
        { clrBase with targetFrequency := 19 / 20 } = 2 := by
  have hops : estimatePerIterOps apZero ⟨1, 3, 1⟩ = 3 := by decide
  have hq : (1000 * ((3 : ℚ) / 1000000000) / (95 / 100 * (2 / 1000000000)))
      / (1000 / (19 / 20)) = 3 / 2 := by norm_num
  constructor
  · simp only [findNChunk, estimateWUGFLOPsPerIter, GPU_EFFICIENCY_ESTIMATE]
    rw [hops]
    push_cast
    rw [hq]
    norm_num [U32]
  · simp only [specChunkCountCeil, estimateWUGFLOPsPerIter, GPU_EFFICIENCY_ESTIMATE]
    rw [hops]
    push_cast
    rw [hq]
    have hc : (⌈(3 / 2 : ℚ)⌉ : ℤ) = 2 := by
      rw [Int.ceil_eq_iff]
      constructor <;> norm_num
    rw [hc]
    rfl

/-- C3 (corrected, amended): the cost estimator's target chunk count is the
TRUNCATION (not the ceiling) of
`estimated_iteration_time_ms / (1000 / target_frequency_hz)`, reduced to
the 32-bit unsigned range, floored at 1; it is a total function and always
at least 1. -/
theorem findNChunk_eq_floor_spec (ap : AstronomyParameters) (ia : IntegralArea)
    (di : DevInfo) (clr : CLRequest) :
    findNChunk ap ia di clr = specChunkCountFloor ap ia di clr ∧
      1 ≤ findNChunk ap ia di clr := by
  refine ⟨?_, findNChunk_pos ap ia di clr⟩
  simp only [findNChunk, specChunkCountFloor]
  generalize Int.toNat ⌊1000 * estimateWUGFLOPsPerIter ap ia
    / (GPU_EFFICIENCY_ESTIMATE * di.gflopsEstimate) / (1000 / clr.targetFrequency)⌋ % U32 = n
  split <;> omega

/-- C1 (code bug): on the oversized-chunk clamp path the planner returns
success with `chunkSize * nChunk = 8` while `effectiveArea = 10` (and
`area = 10`), so `chunkSize * nChunk == effectiveArea` fails and the
dispatch loop would not cover the whole area. -/
theorem findRunSizes_clamp_breaks_area_invariant :
    findRunSizes rsZero { gpuBase with maxWorkItemSizes0 := 3 } (some 1) apZero
        ⟨1, 1, 10⟩ { clrBase with magicFactor := 100 } =
      .ok ⟨10, 1, 1, 10, 1, 4, 2, 0, 10, 1, 2⟩ ∧
    (⟨10, 1, 1, 10, 1, 4, 2, 0, 10, 1, 2⟩ : RunSizes).chunkSize *
        (⟨10, 1, 1, 10, 1, 4, 2, 0, 10, 1, 2⟩ : RunSizes).nChunk ≠
      (⟨10, 1, 1, 10, 1, 4, 2, 0, 10, 1, 2⟩ : RunSizes).effectiveArea := by
  have hN : findNChunk apZero ⟨1, 1, 10⟩ { gpuBase with maxWorkItemSizes0 := 3 }
      { clrBase with magicFactor := 100 } = 1 :=
    findNChunk_gflops_one _ _ _ _ rfl rfl (by decide)
  constructor
  · unfold findRunSizes
    rw [hN]
    decide
  · decide

lemma finishPlan_eq_ok (s t : RunSizes) (h : finishPlan s = .ok t) :
    s.area ≤ s.effectiveArea ∧ t = { s with global0 := s.chunkSize } := by
  simp only [finishPlan] at h
  split at h
  · cases h
  · rename_i hlt
    cases h
    exact ⟨Nat.le_of_not_lt hlt, rfl⟩

lemma planFinishStage_ok_inv (s6 : RunSizes) (mwd : ℕ) (t : RunSizes)
    (h : planFinishStage s6 mwd = .ok t) :
    s6.nChunk ≠ 0 ∧ t.area = s6.area ∧ t.effectiveArea = s6.effectiveArea ∧
      t.local0 = s6.local0 ∧ t.global0 = t.chunkSize ∧
      s6.area ≤ s6.effectiveArea ∧
      ((s6.effectiveArea / s6.nChunk ≤ mwd ∧ t.nChunk = s6.nChunk ∧
          t.chunkSize = s6.effectiveArea / s6.nChunk) ∨
        (mwd < s6.effectiveArea / s6.nChunk ∧ t.chunkSize % s6.local0 = 0)) := by
  simp only [planFinishStage] at h
  split at h
  · cases h
  · rename_i hn0
    split at h
    · rename_i hgt
      split at h
      · cases h
      · cases h
      · rename_i n c hcl
        split at h
        · cases h
        · rename_i hl0
          split at h
          · cases h
          · rename_i hdvd
            obtain ⟨hle, rfl⟩ := finishPlan_eq_ok _ _ h
            have hd2 : mwDivisible c s6.local0 = true := by
              simpa using hdvd
            refine ⟨hn0, rfl, rfl, rfl, rfl, hle, Or.inr ⟨hgt, ?_⟩⟩
            exact (mwDivisible_iff _ _).mp hd2
    · rename_i hle
      obtain ⟨hle2, rfl⟩ := finishPlan_eq_ok _ _ h
      exact ⟨hn0, rfl, rfl, rfl, rfl, hle2, Or.inl ⟨Nat.le_of_not_lt hle, rfl, rfl⟩⟩

lemma findRunSizesAfterMagic_force_nChunk (s3 : RunSizes) (magic B mwd : ℕ)
    (t : RunSizes) (hok : findRunSizesAfterMagic s3 magic B mwd true = .ok t)
    (hsmall : t.effectiveArea ≤ mwd) : t.nChunk = 1 := by
  simp only [findRunSizesAfterMagic, if_true] at hok
  split at hok
  · cases hok
  · split at hok
    · cases hok
    · obtain ⟨hn0, ha, he, hl, hg, hle, hdisj⟩ := planFinishStage_ok_inv _ _ _ hok
      rcases hdisj with ⟨hle2, hnc, hcs⟩ | ⟨hgt, hdv⟩
      · simp [hnc]
      · exfalso
        dsimp only at hgt
        rw [Nat.div_one] at hgt
        rw [he] at hsmall
        dsimp only at hsmall
        exact absurd hsmall (not_le.mpr hgt)

/-- C4 counterexample: with the non-responsive flag set on a non-CPU device,
the oversized-chunk clamp still doubles `nChunk`, so a successful plan can
end with `nChunk = 2`. -/
theorem findRunSizes_forceOneChunk_clamp_cex :
    findRunSizes rsZero { gpuBase with maxWorkItemSizes0 := 2 } (some 1) apZero
        ⟨1, 1, 4⟩ { clrBase with nonResponsive := true } =
      .ok ⟨4, 1, 1, 4, 1, 2, 2, 0, 4, 1, 2⟩ ∧
    (⟨4, 1, 1, 4, 1, 2, 2, 0, 4, 1, 2⟩ : RunSizes).nChunk ≠ 1 := by
  have hN : findNChunk apZero ⟨1, 1, 4⟩ { gpuBase with maxWorkItemSizes0 := 2 }
      { clrBase with nonResponsive := true } = 1 :=
    findNChunk_gflops_one _ _ _ _ rfl rfl (by decide)
  constructor
  · unfold findRunSizes
    rw [hN]
    decide
  · decide

/-- C4 (corrected, amended): for a non-CPU device, when the request sets the
non-responsive flag (or the device is flagged non-output), a successful plan
has `nChunk = 1`, unless the oversized-workload clamp engages (that is,
whenever the resulting effective area fits the device's maximum work
dimension). -/
theorem findRunSizes_forceOneChunk_nChunk_one (s0 : RunSizes) (di : DevInfo)
    (wgs : ℕ) (ap : AstronomyParameters) (ia : IntegralArea) (clr : CLRequest)
    (t : RunSizes) (hcpu : di.devTypeIsCPU = false)
    (hforce : (clr.nonResponsive || di.nonOutput) = true)
    (hok : findRunSizes s0 di (some wgs) ap ia clr = .ok t)
    (hsmall : t.effectiveArea ≤ maxWorkDim di) : t.nChunk = 1 := by
  simp only [findRunSizes, hforce, hcpu, Bool.false_eq_true, if_false] at hok
  split at hok
  · cases hok
  · split at hok
    · cases hok
    · split at hok
      · cases hok
      · split at hok
        · cases hok
        · split at hok
          · split at hok
            · cases hok
            · exact findRunSizesAfterMagic_force_nChunk _ _ _ _ _ hok hsmall
          · exact findRunSizesAfterMagic_force_nChunk _ _ _ _ _ hok hsmall

/-- Witness for C4's amended theorem at a concrete forced input. -/
theorem findRunSizes_forceOneChunk_nChunk_one_witness :
    (⟨4, 1, 1, 4, 1, 1, 4, 0, 4, 1, 4⟩ : RunSizes).nChunk = 1 :=
  findRunSizes_forceOneChunk_nChunk_one rsZero gpuBase 1 apZero ⟨1, 1, 4⟩
    { clrBase with nonResponsive := true } _ rfl rfl
    (by
      have hN : findNChunk apZero ⟨1, 1, 4⟩ gpuBase
          { clrBase with nonResponsive := true } = 1 :=
        findNChunk_gflops_one _ _ _ _ rfl rfl (by decide)
      unfold findRunSizes
      rw [hN]
      decide)
    (by decide)

lemma findRunSizesAfterMagic_user_chunk (s3 : RunSizes) (magic B mwd : ℕ)
    (t : RunSizes) (hm : 1 ≤ magic) (hB : 1 ≤ B)
    (hnw : s3.area + magic * B < U64)
    (hlt : magic * B < s3.area)
    (hclamp : magic * B ≤ mwd)
    (hok : findRunSizesAfterMagic s3 magic B mwd false = .ok t) :
    t.chunkSize = magic * B := by
  set c := magic * B with hcdef
  have hc0 : 0 < c := Nat.mul_pos hm hB
  have hcU : c < U64 := lt_of_le_of_lt (Nat.le_add_left _ _) hnw
  simp only [findRunSizesAfterMagic, Bool.false_eq_true, if_false] at hok
  rw [Nat.mod_eq_of_lt hcU] at hok
  rw [if_neg (Nat.pos_iff_ne_zero.mp hc0)] at hok
  have hm2 : 2 ≤ mwDivRoundup s3.area c := by
    unfold mwDivRoundup
    rw [Nat.le_div_iff_mul_le hc0]
    omega
  have hEup : c * mwDivRoundup s3.area c ≤ s3.area + c - 1 := mul_mwDivRoundup_le _ _
  have hEU : c * mwDivRoundup s3.area c < U64 := lt_of_le_of_lt hEup (by omega)
  rw [Nat.mod_eq_of_lt hEU] at hok
  rw [mwDivRoundup_mul_self _ _ hc0] at hok
  rw [if_neg (by omega)] at hok
  obtain ⟨hn0, ha, he, hl, hg, hle, hdisj⟩ := planFinishStage_ok_inv _ _ _ hok
  have hdiv : c * mwDivRoundup s3.area c / mwDivRoundup s3.area c = c := by
    rw [Nat.mul_comm]
    exact Nat.mul_div_cancel_left c (by omega)
  rcases hdisj with ⟨hle2, hnc, hcs⟩ | ⟨hgt, hdv⟩
  · dsimp only at hcs
    rw [hdiv] at hcs
    exact hcs
  · exfalso
    dsimp only at hgt
    rw [hdiv] at hgt
    exact absurd hclamp (not_le.mpr hgt)

/-- C5 counterexample: with magic-factor override K = 5 on a tiny workload
(blockSize 1, area 3), `nChunk` collapses to 1 and the plan realigns to
`blockSize`, returning `chunkSize = 3`, not `K * blockSize = 5`, even though
the oversized-workload clamp never engaged (`nChunk = 1`). -/
theorem findRunSizes_magic_override_collapse_cex :
    findRunSizes rsZero gpuBase (some 1) apZero ⟨1, 1, 3⟩
        { clrBase with magicFactor := 5 } =
      .ok ⟨3, 1, 1, 3, 1, 1, 3, 0, 3, 1, 3⟩ ∧
    (⟨3, 1, 1, 3, 1, 1, 3, 0, 3, 1, 3⟩ : RunSizes).chunkSize ≠ 5 * 1 ∧
    (⟨3, 1, 1, 3, 1, 1, 3, 0, 3, 1, 3⟩ : RunSizes).nChunk = 1 := by
  have hN : findNChunk apZero ⟨1, 1, 3⟩ gpuBase { clrBase with magicFactor := 5 } = 1 :=
    findNChunk_gflops_one _ _ _ _ rfl rfl (by decide)
  refine ⟨?_, by decide, by decide⟩
  unfold findRunSizes
  rw [hN]
  decide

/-- C5 (corrected, amended): for a non-CPU device with a positive
magic-factor override K, a successful plan yields
`chunkSize = K * blockSize` provided the resulting chunk count exceeds one
(`K * blockSize < area`) and the clamp does not engage
(`K * blockSize <= maxWorkDim`); when the chunk count collapses to 1 the
chunk size is instead realigned to `blockSize`. -/
theorem findRunSizes_magic_override_chunkSize (s0 : RunSizes) (di : DevInfo)
    (wgs : ℕ) (ap : AstronomyParameters) (ia : IntegralArea) (clr : CLRequest)
    (t : RunSizes) (K : ℕ)
    (hcpu : di.devTypeIsCPU = false)
    (hforce : (clr.nonResponsive || di.nonOutput) = false)
    (hK : clr.magicFactor = (K : ℤ)) (hK1 : 1 ≤ K) (hKlt : K < 2147483648)
    (hB1 : 1 ≤ wgs * di.maxCompUnits)
    (hB32 : wgs * di.maxCompUnits < U32)
    (hlt : K * (wgs * di.maxCompUnits) < ia.r_steps * ia.mu_steps % U64)
    (hnw : ia.r_steps * ia.mu_steps % U64 + K * (wgs * di.maxCompUnits) < U64)
    (hclamp : K * (wgs * di.maxCompUnits) ≤ maxWorkDim di)
    (hok : findRunSizes s0 di (some wgs) ap ia clr = .ok t) :
    t.chunkSize = K * (wgs * di.maxCompUnits) := by
  have hCU : 1 ≤ di.maxCompUnits := by
    rcases Nat.eq_zero_or_pos di.maxCompUnits with h0 | h
    · rw [h0, Nat.mul_zero] at hB1
      omega
    · exact h
  have hwgs1 : 1 ≤ wgs := by
    rcases Nat.eq_zero_or_pos wgs with h0 | h
    · rw [h0, Nat.zero_mul] at hB1
      omega
    · exact h
  simp only [findRunSizes, hforce, hcpu, Bool.false_eq_true, if_false] at hok
  split at hok
  · cases hok
  · split at hok
    · cases hok
    · split at hok
      · cases hok
      · rename_i hw0
        split at hok
        · cases hok
        · rename_i hwdvd
          have hmod0 : wgs % di.warpSize = 0 := by
            have hd : mwDivisible wgs di.warpSize = true := by simpa using hwdvd
            exact (mwDivisible_iff _ _).mp hd
          have hquot : wgs / di.warpSize * di.warpSize = wgs :=
            Nat.div_mul_cancel (Nat.dvd_of_mod_eq_zero hmod0)
          have hwgsU : wgs < U64 := by
            have h1 : wgs ≤ wgs * di.maxCompUnits := Nat.le_mul_of_pos_right wgs hCU
            unfold U32 U64 at *
            omega
          have hprodU : wgs * di.maxCompUnits < U64 := by
            unfold U32 U64 at *
            omega
          have hBeq : wgs / di.warpSize * di.warpSize % U64 * di.maxCompUnits % U64 =
              wgs * di.maxCompUnits := by
            rw [hquot, Nat.mod_eq_of_lt hwgsU, Nat.mod_eq_of_lt hprodU]
          rw [hBeq] at hok
          split at hok
          · rename_i hneg
            rw [hK] at hneg
            omega
          · rw [hK] at hok
            rw [Int.toNat_natCast] at hok
            rw [Nat.mod_eq_of_lt (show K < U32 by unfold U32; omega)] at hok
            exact findRunSizesAfterMagic_user_chunk _ _ _ _ _ hK1 hB1 hnw hlt hclamp hok

/-- Witness for C5's amended theorem: K = 2, blockSize 1, area 5 gives
chunkSize 2. -/
theorem findRunSizes_magic_override_chunkSize_witness :
    (⟨5, 1, 1, 5, 1, 3, 2, 1, 6, 1, 2⟩ : RunSizes).chunkSize = 2 * (1 * 1) :=
  findRunSizes_magic_override_chunkSize rsZero gpuBase 1 apZero ⟨1, 1, 5⟩
    { clrBase with magicFactor := 2 } _ 2 rfl rfl rfl (by decide) (by decide)
    (by decide) (by decide) (by decide) (by decide) (by decide)
    (by
      have hN : findNChunk apZero ⟨1, 1, 5⟩ gpuBase { clrBase with magicFactor := 2 } = 1 :=
        findNChunk_gflops_one _ _ _ _ rfl rfl (by decide)
      unfold findRunSizes
      rw [hN]
      decide)

lemma collapse_chunk_divisible (s3 : RunSizes) (B w : ℕ) (t : RunSizes)
    (hwB : w ∣ B) (hB0 : 0 < B)
    (hBU : B < U64) (harea : s3.area < U64)
    (hle : s3.area ≤ B * mwDivRoundup s3.area B % U64)
    (hcs : t.chunkSize = B * mwDivRoundup s3.area B % U64) :
    t.chunkSize % w = 0 := by
  have htB := mul_mwDivRoundup_le s3.area B
  by_cases hwrap : B * mwDivRoundup s3.area B < U64
  · rw [Nat.mod_eq_of_lt hwrap] at hcs
    rw [hcs]
    exact Nat.mod_eq_zero_of_dvd (hwB.mul_right _)
  · exfalso
    have hea : B * mwDivRoundup s3.area B % U64 = B * mwDivRoundup s3.area B - U64 := by
      rw [Nat.mod_eq_sub_mod (by omega), Nat.mod_eq_of_lt (by omega)]
    rw [hea] at hle
    omega

lemma findRunSizesAfterMagic_ok_divisible (s3 : RunSizes) (magic B mwd : ℕ)
    (force : Bool) (w : ℕ) (t : RunSizes) (hloc : s3.local0 = w)
    (hwB : w ∣ B) (hnw : magic * B < U64) (harea : s3.area < U64)
    (hok : findRunSizesAfterMagic s3 magic B mwd force = .ok t) :
    t.local0 = w ∧ t.global0 = t.chunkSize ∧ t.chunkSize % w = 0 := by
  rcases Nat.eq_zero_or_pos (magic * B) with hc | hc0
  · simp only [findRunSizesAfterMagic] at hok
    rw [hc] at hok
    simp only [Nat.zero_mod, if_pos] at hok
    cases hok
  · have hcne : ¬ magic * B = 0 := Nat.pos_iff_ne_zero.mp hc0
    have hB0 : 0 < B := by
      rcases Nat.eq_zero_or_pos B with h0 | h
      · exfalso
        apply hcne
        rw [h0, Nat.mul_zero]
      · exact h
    have hm0 : 0 < magic := by
      rcases Nat.eq_zero_or_pos magic with h0 | h
      · exfalso
        apply hcne
        rw [h0, Nat.zero_mul]
      · exact h
    have hBU : B < U64 := lt_of_le_of_lt (Nat.le_mul_of_pos_left B hm0) hnw
    cases force with
    | true =>
      simp only [findRunSizesAfterMagic, if_true] at hok
      rw [Nat.mod_eq_of_lt hnw, if_neg hcne, if_neg (Nat.pos_iff_ne_zero.mp hB0)] at hok
      obtain ⟨hn0, ha, he, hl, hg, hle, hdisj⟩ := planFinishStage_ok_inv _ _ _ hok
      dsimp only at hn0 ha he hl hg hle hdisj
      refine ⟨by rw [hl, hloc], hg, ?_⟩
      rcases hdisj with ⟨h_, hnc, hcs⟩ | ⟨hgt, hdv⟩
      · rw [Nat.div_one] at hcs
        exact collapse_chunk_divisible s3 B w t hwB hB0 hBU harea hle hcs
      · rw [hloc] at hdv
        exact hdv
    | false =>
      simp only [findRunSizesAfterMagic, Bool.false_eq_true, if_false] at hok
      rw [Nat.mod_eq_of_lt hnw, if_neg hcne] at hok
      by_cases h1 : mwDivRoundup (magic * B * mwDivRoundup s3.area (magic * B) % U64)
          (magic * B) = 1
      · rw [if_pos h1, if_neg (Nat.pos_iff_ne_zero.mp hB0)] at hok
        obtain ⟨hn0, ha, he, hl, hg, hle, hdisj⟩ := planFinishStage_ok_inv _ _ _ hok
        dsimp only at hn0 ha he hl hg hle hdisj
        refine ⟨by rw [hl, hloc], hg, ?_⟩
        rcases hdisj with ⟨h_, hnc, hcs⟩ | ⟨hgt, hdv⟩
        · rw [h1, Nat.div_one] at hcs
          exact collapse_chunk_divisible s3 B w t hwB hB0 hBU harea hle hcs
        · rw [hloc] at hdv
          exact hdv
      · rw [if_neg h1] at hok
        obtain ⟨hn0, ha, he, hl, hg, hle, hdisj⟩ := planFinishStage_ok_inv _ _ _ hok
        dsimp only at hn0 ha he hl hg hle hdisj
        refine ⟨by rw [hl, hloc], hg, ?_⟩
        rcases hdisj with ⟨h_, hnc, hcs⟩ | ⟨hgt, hdv⟩
        · -- no-wrap, nChunk = m, chunkSize = c
          have htE := mul_mwDivRoundup_le s3.area (magic * B)
          by_cases hwrap : magic * B * mwDivRoundup s3.area (magic * B) < U64
          · rw [Nat.mod_eq_of_lt hwrap] at hcs h1 hn0
            rw [mwDivRoundup_mul_self _ _ hc0] at hcs h1 hn0
            rw [Nat.mul_comm, Nat.mul_div_cancel_left _ (Nat.pos_of_ne_zero hn0)] at hcs
            rw [hcs]
            exact Nat.mod_eq_zero_of_dvd (hwB.mul_left magic)
          · exfalso
            have hea : magic * B * mwDivRoundup s3.area (magic * B) % U64 =
                magic * B * mwDivRoundup s3.area (magic * B) - U64 := by
              rw [Nat.mod_eq_sub_mod (by omega), Nat.mod_eq_of_lt (by omega)]
            rw [hea] at hle
            have hcU : magic * B < U64 := hnw
            omega
        · rw [hloc] at hdv
          exact hdv

lemma mul_lt_U64_of_lt_U32 (m B : ℕ) (hm : m < U32) (hB : B < U32) : m * B < U64 := by
  have h := Nat.mul_lt_mul'' hm hB
  unfold U32 at h
  unfold U64
  omega

lemma magicSel_lt_U32 (x : ℕ) : (if x % U32 = 0 then 1 else x % U32) < U32 := by
  split
  · unfold U32
    omega
  · exact Nat.mod_lt _ (by unfold U32; omega)

/-- C10 (confirmed): on every successful non-CPU plan the chosen local work
size is the device warp size, the global work size equals the final chunk
size, and the final chunk size is an exact multiple of the warp size — on
every path, not only the clamp-corrected one.  The work-group size and
compute-unit count are assumed to satisfy `wgs * maxCompUnits < 2^32`
(device sanity; both are small hardware counts). -/
theorem findRunSizes_ok_chunk_divisible_warp (s0 : RunSizes) (di : DevInfo)
    (wgs : ℕ) (ap : AstronomyParameters) (ia : IntegralArea) (clr : CLRequest)
    (t : RunSizes) (hcpu : di.devTypeIsCPU = false)
    (hB32 : wgs * di.maxCompUnits < U32)
    (hok : findRunSizes s0 di (some wgs) ap ia clr = .ok t) :
    t.local0 = di.warpSize ∧ t.global0 = t.chunkSize ∧
      t.chunkSize % di.warpSize = 0 := by
  simp only [findRunSizes, hcpu, Bool.false_eq_true, if_false] at hok
  have hareaU : ia.r_steps * ia.mu_steps % U64 < U64 := Nat.mod_lt _ U64_pos
  split at hok
  · cases hok
  · split at hok
    · cases hok
    · split at hok
      · cases hok
      · rename_i hw0
        split at hok
        · cases hok
        · rename_i hwdvd
          have hmod0 : wgs % di.warpSize = 0 := by
            have hd : mwDivisible wgs di.warpSize = true := by simpa using hwdvd
            exact (mwDivisible_iff _ _).mp hd
          have hquot : wgs / di.warpSize * di.warpSize = wgs :=
            Nat.div_mul_cancel (Nat.dvd_of_mod_eq_zero hmod0)
          have hwB : di.warpSize ∣ wgs * di.maxCompUnits :=
            Dvd.dvd.mul_right (Nat.dvd_of_mod_eq_zero hmod0) _
          have hBltU32 : wgs * di.maxCompUnits < U32 := hB32
          have hBeq : wgs / di.warpSize * di.warpSize % U64 * di.maxCompUnits % U64 =
              wgs * di.maxCompUnits := by
            rw [hquot]
            rcases Nat.eq_zero_or_pos di.maxCompUnits with h0 | hCU
            · rw [h0, Nat.mul_zero, Nat.mul_zero, Nat.zero_mod]
            · have hwgsU : wgs < U64 := by
                have h1 : wgs ≤ wgs * di.maxCompUnits := Nat.le_mul_of_pos_right wgs hCU
                unfold U32 U64 at *
                omega
              have hprodU : wgs * di.maxCompUnits < U64 := by
                unfold U32 U64 at *
                omega
              rw [Nat.mod_eq_of_lt hwgsU, Nat.mod_eq_of_lt hprodU]
          rw [hBeq] at hok
          split at hok
          · split at hok
            · cases hok
            · exact findRunSizesAfterMagic_ok_divisible _ _ _ _ _ _ _ rfl hwB
                (mul_lt_U64_of_lt_U32 _ _ (magicSel_lt_U32 _) hBltU32) hareaU hok
          · exact findRunSizesAfterMagic_ok_divisible _ _ _ _ _ _ _ rfl hwB
              (mul_lt_U64_of_lt_U32 _ _ (Nat.mod_lt _ (by unfold U32; omega)) hBltU32)
              hareaU hok

/-- Witness for C10 at a concrete successful plan (warp size 2). -/
theorem findRunSizes_ok_chunk_divisible_warp_witness :
    (⟨10, 1, 1, 10, 1, 1, 10, 0, 10, 2, 10⟩ : RunSizes).local0 =
        ({ gpuBase with warpSize := 2 } : DevInfo).warpSize ∧
      (⟨10, 1, 1, 10, 1, 1, 10, 0, 10, 2, 10⟩ : RunSizes).global0 =
        (⟨10, 1, 1, 10, 1, 1, 10, 0, 10, 2, 10⟩ : RunSizes).chunkSize ∧
      (⟨10, 1, 1, 10, 1, 1, 10, 0, 10, 2, 10⟩ : RunSizes).chunkSize %
        ({ gpuBase with warpSize := 2 } : DevInfo).warpSize = 0 :=
  findRunSizes_ok_chunk_divisible_warp rsZero { gpuBase with warpSize := 2 } 2 apZero
    ⟨1, 1, 10⟩ clrBase _ rfl (by decide)
    (by
      have hN : findNChunk apZero ⟨1, 1, 10⟩ { gpuBase with warpSize := 2 } clrBase = 1 :=
        findNChunk_gflops_one _ _ _ _ rfl rfl (by decide)
      unfold findRunSizes
      rw [hN]
      decide)

lemma separationCheckDevMemory_true_iff (di : DevInfo) (sz : SeparationSizes)
    (hnw : totalBytes sz < U64) :
    separationCheckDevMemory di sz = true ↔
      (totalBytes sz ≤ di.memSize ∧
        sz.outBg ≤ di.memSize ∧ sz.outStreams ≤ di.memSize ∧
        sz.outBg ≤ di.maxMemAlloc ∧ sz.outStreams ≤ di.maxMemAlloc ∧
        sz.lTrig ≤ di.maxMemAlloc ∧ sz.bSin ≤ di.maxMemAlloc ∧
        sz.rPts ≤ di.maxMemAlloc ∧ sz.rc ≤ di.maxMemAlloc ∧
        NUM_CONST_BUF_ARGS ≤ di.maxConstArgs ∧
        sz.ap + sz.ia + sz.sc + sz.sg_dx ≤ di.maxConstBufSize) := by
  unfold totalBytes at hnw ⊢
  have h1 : (sz.outBg + sz.outStreams) % U64 = sz.outBg + sz.outStreams :=
    Nat.mod_eq_of_lt (by omega)
  have h2 : (sz.ap + sz.ia + sz.sc + sz.sg_dx) % U64 =
      sz.ap + sz.ia + sz.sc + sz.sg_dx :=
    Nat.mod_eq_of_lt (by omega)
  have h3 : (sz.lTrig + sz.bSin + sz.rPts + sz.rc) % U64 =
      sz.lTrig + sz.bSin + sz.rPts + sz.rc :=
    Nat.mod_eq_of_lt (by omega)
  have h4 : (sz.outBg + sz.outStreams + (sz.ap + sz.ia + sz.sc + sz.sg_dx) +
      (sz.lTrig + sz.bSin + sz.rPts + sz.rc)) % U64 =
      sz.outBg + sz.outStreams + (sz.ap + sz.ia + sz.sc + sz.sg_dx) +
      (sz.lTrig + sz.bSin + sz.rPts + sz.rc) :=
    Nat.mod_eq_of_lt (by omega)
  simp only [separationCheckDevMemory, NUM_CONST_BUF_ARGS, h1, h2, h3, h4,
    Bool.or_eq_true, decide_eq_true_eq]
  constructor
  · intro h
    repeat' split at h
    all_goals first | omega | cases h
  · intro h
    repeat' split
    all_goals first | rfl | (exfalso; omega)

/-- C7 (confirmed): the capability checker accepts exactly when, for every
cut, (a) the required precision is supported, (b) the total of all buffers
fits global memory, (c) each output buffer individually fits global memory,
(d) each output and each read-only/constant global buffer fits the largest
single allocation, (e) the constant-argument count is within the device
limit, and (f) the constant-buffer bytes fit the constant budget; and when
the checker rejects, `setupSeparationCL` attempts no program build and
returns failure. -/
theorem separationCheck_spec_and_no_build (doubleprec : Bool) (di : DevInfo)
    (cutSizes : List SeparationSizes)
    (hnw : ∀ sz ∈ cutSizes, totalBytes sz < U64) :
    (separationCheckDevCapabilities doubleprec di cutSizes = true ↔
      specCapabilityChecks doubleprec di cutSizes) ∧
    ∀ (platformAMDOffline : Bool) (ap : AstronomyParameters) (clr : CLRequest)
      (o : SetupOracles),
      separationCheckDevCapabilities doubleprec di cutSizes = false →
      (setupSeparationCL doubleprec di platformAMDOffline ap cutSizes clr o).srcBuilds = 0 ∧
      (setupSeparationCL doubleprec di platformAMDOffline ap cutSizes clr o).binBuilds = 0 ∧
      (setupSeparationCL doubleprec di platformAMDOffline ap cutSizes clr o).ok = false := by
  constructor
  · unfold separationCheckDevCapabilities specCapabilityChecks
    by_cases hpre : (doubleprec && !di.supportsDoubles) = true
    · rw [if_pos hpre]
      simp only [Bool.and_eq_true, Bool.not_eq_true'] at hpre
      constructor
      · intro h
        cases h
      · intro h
        rw [h.1 hpre.1] at hpre
        cases hpre.2
    · rw [if_neg hpre]
      simp only [Bool.and_eq_true, Bool.not_eq_true'] at hpre
      rw [List.all_eq_true]
      constructor
      · intro h
        refine ⟨?_, fun sz hsz =>
          (separationCheckDevMemory_true_iff di sz (hnw sz hsz)).mp (h sz hsz)⟩
        intro hd
        cases hs : di.supportsDoubles
        · exact absurd ⟨hd, hs⟩ hpre
        · rfl
      · intro h sz hsz
        exact (separationCheckDevMemory_true_iff di sz (hnw sz hsz)).mpr (h.2 sz hsz)
  · intro pl ap clr o hfail
    cases ho : o.setupCLOk
    · simp [setupSeparationCL, ho]
    · simp [setupSeparationCL, ho, hfail]

/-- A cut whose output buffer exceeds the device's largest single
allocation while everything fits total memory. -/
def szBad : SeparationSizes := ⟨2000000000, 1, 1, 1, 1, 1, 1, 1, 1, 1⟩

/-- An oracle on which every external call would succeed. -/
def oAll : SetupOracles := ⟨true, true, true, true, true, true, true, true, true⟩

/-- Witness for C7 at a concrete failing cut: the capability check rejects
(output buffer larger than the maximum single allocation) and no kernel
build is attempted. -/
theorem separationCheck_spec_and_no_build_witness :
    (setupSeparationCL true gpuBase false apZero [szBad] clrBase oAll).srcBuilds = 0 ∧
    (setupSeparationCL true gpuBase false apZero [szBad] clrBase oAll).binBuilds = 0 ∧
    (setupSeparationCL true gpuBase false apZero [szBad] clrBase oAll).ok = false :=
  (separationCheck_spec_and_no_build true gpuBase [szBad] (by decide)).2
    false apZero clrBase oAll (by decide)

lemma isILKernelTarget_iff (di : DevInfo) :
    isILKernelTarget di = true ↔
      (di.calTarget = .MW_CAL_TARGET_770 ∨ di.calTarget = .MW_CAL_TARGET_CYPRESS ∨
        di.calTarget = .MW_CAL_TARGET_CAYMAN) := by
  unfold isILKernelTarget
  cases h : di.calTarget <;> decide

lemma usingILKernelIsAcceptable_iff (doubleprec : Bool) (di : DevInfo)
    (pl : Bool) (ap : AstronomyParameters) (clr : CLRequest) :
    usingILKernelIsAcceptable doubleprec di pl ap clr = true ↔
      specILConditions doubleprec di pl ap clr := by
  unfold usingILKernelIsAcceptable specILConditions maxILKernelStreams
  constructor
  · intro h
    split at h
    · cases h
    · rename_i hd
      split at h
      · cases h
      · rename_i hf
        split at h
        · cases h
        · rename_i hs
          simp only [Bool.and_eq_true] at h
          obtain ⟨⟨hA, htg⟩, hp⟩ := h
          have hd2 : doubleprec = true := by
            revert hd
            cases doubleprec <;> simp
          have hf2 : clr.forceNoILKernel = false := by
            revert hf
            cases clr.forceNoILKernel <;> simp
          have hs2 : ap.number_streams ≤ 4 ∧ ap.aux_bg_profile = false := by
            revert hs
            cases ap.aux_bg_profile <;> simp
          exact ⟨hd2, hf2, hs2.1, hs2.2, hA, (isILKernelTarget_iff di).mp htg, hp⟩
  · rintro ⟨hd, hf, hs4, haux, hA, htg, hp⟩
    have hs : ¬ ap.number_streams > 4 := by omega
    rw [hd, hf, hp, hA, haux]
    simp only [Bool.not_true, Bool.false_eq_true, if_false, Bool.or_false,
      decide_eq_true_eq, if_neg hs, Bool.true_and, Bool.and_true]
    exact (isILKernelTarget_iff di).mpr htg

/-- C8 (confirmed): the binary (IL) kernel variant is selected exactly when
all spec conditions hold (double precision, not forced off, at most 4
streams with the auxiliary background term off, recognized AMD target on a
platform with offline-device support); when selected and the IL path fails
at any step, a successful fallback source compilation (plus kernel
creation) yields a successful result bound to the source program, and only
failure of the fallback compilation itself is fatal. -/
theorem ilKernel_selection_and_fallback (doubleprec : Bool) (di : DevInfo)
    (pl : Bool) (ap : AstronomyParameters) (clr : CLRequest) :
    (usingILKernelIsAcceptable doubleprec di pl ap clr = true ↔
      specILConditions doubleprec di pl ap clr) ∧
    (∀ (cutSizes : List SeparationSizes) (o : SetupOracles),
      usingILKernelIsAcceptable doubleprec di pl ap clr = true →
      o.setupCLOk = true →
      separationCheckDevCapabilities doubleprec di cutSizes = true →
      o.flagsOk = true → o.srcBuild1Ok = true →
      setProgramFromILKernelOk o = false →
      o.srcBuild2Ok = true → o.createKernelOk = true →
      setupSeparationCL doubleprec di pl ap cutSizes clr o =
        { ok := true, prog := .fromSource, srcBuilds := 2, binBuilds := ilBinBuilds o }) ∧
    (∀ (cutSizes : List SeparationSizes) (o : SetupOracles),
      usingILKernelIsAcceptable doubleprec di pl ap clr = true →
      o.setupCLOk = true →
      separationCheckDevCapabilities doubleprec di cutSizes = true →
      o.flagsOk = true → o.srcBuild1Ok = true →
      setProgramFromILKernelOk o = false →
      o.srcBuild2Ok = false →
      (setupSeparationCL doubleprec di pl ap cutSizes clr o).ok = false) := by
  refine ⟨usingILKernelIsAcceptable_iff _ _ _ _ _, ?_, ?_⟩
  · intro cs o hIL hsetup hcap hflags hsrc1 hILfail hsrc2 hck
    simp [setupSeparationCL, hsetup, hcap, hIL, hflags, hsrc1, hILfail, hsrc2, hck]
  · intro cs o hIL hsetup hcap hflags hsrc1 hILfail hsrc2
    simp [setupSeparationCL, hsetup, hcap, hIL, hflags, hsrc1, hILfail, hsrc2]

/-- An AMD Cypress device eligible for the IL kernel. -/
def devAMD : DevInfo :=
  { gpuBase with isAMDGPU := true, calTarget := .MW_CAL_TARGET_CYPRESS }

/-- An oracle on which the binary patch step fails and everything else
succeeds. -/
def oILFail : SetupOracles := ⟨true, true, true, true, true, false, true, true, true⟩

/-- Witness for C8: IL preconditions hold, the patch step fails, and setup
returns success bound to the source-compiled program. -/
theorem ilKernel_selection_and_fallback_witness :
    setupSeparationCL true devAMD true apZero [] clrBase oILFail =
      { ok := true, prog := .fromSource, srcBuilds := 2, binBuilds := 0 } :=
  (ilKernel_selection_and_fallback true devAMD true apZero clrBase).2.1 [] oILFail
    (by decide) rfl (by decide) rfl rfl (by decide) rfl rfl

end MilkyWay
